import Mathlib

/-!
Verification of the STA-UNet training pipeline (`trainer_unet.py`, `unet/unet_stvit.py`).

The development shallowly embeds the parts of the repository the specification
talks about:

* the per-batch / per-epoch training loops of `trainer_synapse` and
  `trainer_assd` (loss combination, learning-rate schedule value, scalar
  logging, checkpointing), as explicit state-passing functions over an oracle
  `losses : ℕ → ℕ → ℝ × ℝ` supplying the cross-entropy and Dice loss values
  that the external framework returns for each (epoch, batch);
* the `KDloss` module (`intra_fd`, `inter_fd`, `forward`) over a functional
  model of 4-dimensional tensors, with the `random.sample` channel draws
  taken as explicit parameters;
* the shape semantics of `UNet_STA.forward` and its convolutional blocks.

Floating point arithmetic is modelled by real numbers.
-/

/- ================================================================
   Part 1: the training loops of trainer_synapse / trainer_assd
   (trainer_unet.py, lines 90-228 and 230-328)
   ================================================================ -/

/-- One scalar-log record: the values appended to the TensorBoard stream at a
given iteration (`writer.add_scalar` calls for info/lr, info/total_loss,
info/dice_loss, info/loss_ce at lines 194-197 / 297-300). -/
structure LogEntry where
  iter : ℕ
  lr : ℝ
  totalLoss : ℝ
  diceLoss : ℝ
  ceLoss : ℝ

/-- The optimizer state visible to the trainer: its learning rate (set once at
construction from `base_lr`, lines 151 / 263) and the algorithm name
(`optim.SGD` with momentum 0.9 and weight decay 1e-4 in trainer_synapse,
`optim.AdamW` with weight decay 5e-4 in trainer_assd).  The model parameter
updates performed by `optimizer.step()` are outside the scope of the claims and
are not modelled; neither `SGD.step` nor `AdamW.step` mutates the `lr` entry of
a param group. -/
structure OptState where
  lr : ℝ
  algo : String

/-- The mutable state threaded through the training loop: the optimizer, the
global iteration counter `iter_num`, the list of loss values passed to
`loss.backward()`, the scalar log stream, the checkpoint files written by
`torch.save`, and the lines printed to stdout by the periodic progress print
(trainer_synapse only, line 188-189). -/
structure TrainState where
  opt : OptState
  iter : ℕ
  backprops : List ℝ
  logs : List LogEntry
  saves : List String
  console : List (ℕ × ℕ)

/-- The learning-rate schedule expression
`base_lr * (1.0 - iter_num / max_iterations) ** 0.9`
(trainer_unet.py line 192 / 295).  The exponent is the real power. -/
noncomputable def lrSched (baseLr : ℝ) (maxIter iter : ℕ) : ℝ :=
  baseLr * (1 - (iter : ℝ) / (maxIter : ℝ)) ^ (0.9 : ℝ)

/-- Checkpoint file name `'epoch_' + str(epoch_num) + '.pth'`
(lines 215 / 220 / 316 / 321). -/
def ckptName (e : ℕ) : String := "epoch_" ++ toString e ++ ".pth"

/-- The body of the inner batch loop of `trainer_synapse`
(trainer_unet.py lines 169-201) for batch index `i` of epoch `e`, given the
cross-entropy and Dice loss values `ce` and `dice` returned by the loss
functions on that batch:
`loss = 0.4 * loss_ce + 0.6 * loss_dice` (line 183), `loss.backward()`
(line 185), `optimizer.step()` (line 186, does not touch the learning rate),
the progress print when `i_batch % 10 == 0` (lines 188-189), the computation
of `lr_` (line 192), the four `writer.add_scalar` calls (lines 194-197) and
`iter_num = iter_num + 1` (line 201).  Nothing in the body assigns to
`optimizer.param_groups`. -/
noncomputable def runBatchSynapse (baseLr : ℝ) (maxIter : ℕ) (e i : ℕ)
    (ce dice : ℝ) (s : TrainState) : TrainState :=
  let loss := 0.4 * ce + 0.6 * dice
  let console := if i % 10 = 0 then s.console ++ [(e, i)] else s.console
  let lr' := lrSched baseLr maxIter s.iter
  { s with
    backprops := s.backprops ++ [loss]
    logs := s.logs ++ [⟨s.iter, lr', loss, dice, ce⟩]
    console := console
    iter := s.iter + 1 }

/-- The body of the inner batch loop of `trainer_assd`
(trainer_unet.py lines 275-304): identical to the synapse body except that it
has no periodic progress print. -/
noncomputable def runBatchAssd (baseLr : ℝ) (maxIter : ℕ) (_e _i : ℕ)
    (ce dice : ℝ) (s : TrainState) : TrainState :=
  let loss := 0.4 * ce + 0.6 * dice
  let lr' := lrSched baseLr maxIter s.iter
  { s with
    backprops := s.backprops ++ [loss]
    logs := s.logs ++ [⟨s.iter, lr', loss, dice, ce⟩]
    iter := s.iter + 1 }

/-- One epoch of `trainer_synapse` (lines 167-224): all `B` batches in order,
then `if epoch_num > 80: torch.save(...)` (lines 214-217), then
`if epoch_num >= max_epoch - 1: torch.save(...); break` (lines 219-224).
`losses e i` is the pair (cross-entropy, Dice) of batch `i` of epoch `e`. -/
noncomputable def runEpochSynapse (E B : ℕ) (baseLr : ℝ)
    (losses : ℕ → ℕ → ℝ × ℝ) (e : ℕ) (s : TrainState) : TrainState :=
  let s1 := (List.range B).foldl
    (fun st i => runBatchSynapse baseLr (E * B) e i (losses e i).1 (losses e i).2 st) s
  let s2 := if 80 < e then { s1 with saves := s1.saves ++ [ckptName e] } else s1
  if E - 1 ≤ e then { s2 with saves := s2.saves ++ [ckptName e] } else s2

/-- One epoch of `trainer_assd` (lines 273-325): same structure as
`runEpochSynapse`. -/
noncomputable def runEpochAssd (E B : ℕ) (baseLr : ℝ)
    (losses : ℕ → ℕ → ℝ × ℝ) (e : ℕ) (s : TrainState) : TrainState :=
  let s1 := (List.range B).foldl
    (fun st i => runBatchAssd baseLr (E * B) e i (losses e i).1 (losses e i).2 st) s
  let s2 := if 80 < e then { s1 with saves := s1.saves ++ [ckptName e] } else s1
  if E - 1 ≤ e then { s2 with saves := s2.saves ++ [ckptName e] } else s2

/-- The full epoch loop of `trainer_synapse`: `iter_num = 0` (line 155),
`max_iterations = args.max_epochs * len(trainloader)` (line 157), then
`for epoch_num in iterator` over `range(max_epoch)` (line 167).  The `break`
at line 224 fires exactly at the final index `max_epoch - 1`, so for `E ≥ 1`
the executed epochs are `0, ..., E-1`; for `E = 0` the range is empty.
`E` is `args.max_epochs`, `B` is `len(trainloader)`. -/
noncomputable def runTrainerSynapse (E B : ℕ) (baseLr : ℝ)
    (losses : ℕ → ℕ → ℝ × ℝ) : TrainState :=
  (List.range E).foldl (fun st e => runEpochSynapse E B baseLr losses e st)
    ⟨⟨baseLr, "SGD"⟩, 0, [], [], [], []⟩

/-- The full epoch loop of `trainer_assd` (lines 265-325). -/
noncomputable def runTrainerAssd (E B : ℕ) (baseLr : ℝ)
    (losses : ℕ → ℕ → ℝ × ℝ) : TrainState :=
  (List.range E).foldl (fun st e => runEpochAssd E B baseLr losses e st)
    ⟨⟨baseLr, "AdamW"⟩, 0, [], [], [], []⟩

/- Closed forms for the two loops, used by the claim theorems. -/

/-- The log entry the loop writes at global iteration `k` for a batch with
losses `(ce, dice)`. -/
noncomputable def logEntryAt (baseLr : ℝ) (maxIter : ℕ) (ce dice : ℝ)
    (k : ℕ) : LogEntry :=
  ⟨k, lrSched baseLr maxIter k, 0.4 * ce + 0.6 * dice, dice, ce⟩

/-- Canonical log stream of a full run. -/
noncomputable def canonLogs (E B : ℕ) (baseLr : ℝ)
    (losses : ℕ → ℕ → ℝ × ℝ) : List LogEntry :=
  (List.range E).flatMap fun e =>
    (List.range B).map fun i =>
      logEntryAt baseLr (E * B) (losses e i).1 (losses e i).2 (e * B + i)

/-- Canonical backpropagated-loss stream of a full run. -/
noncomputable def canonBackprops (E B : ℕ) (losses : ℕ → ℕ → ℝ × ℝ) : List ℝ :=
  (List.range E).flatMap fun e =>
    (List.range B).map fun i => 0.4 * (losses e i).1 + 0.6 * (losses e i).2

/-- Canonical checkpoint-file stream of a full run with `E` epochs. -/
def canonSaves (E : ℕ) : List String :=
  (List.range E).flatMap fun e =>
    (if 80 < e then [ckptName e] else []) ++ (if E - 1 ≤ e then [ckptName e] else [])

/-- Canonical console stream of a synapse run. -/
def canonConsole (E B : ℕ) : List (ℕ × ℕ) :=
  (List.range E).flatMap fun e =>
    ((List.range B).filter fun i => i % 10 = 0).map fun i => (e, i)

lemma foldBatchesSynapse (baseLr : ℝ) (mi : ℕ) (e : ℕ) (f : ℕ → ℝ × ℝ)
    (B : ℕ) (s : TrainState) :
    (List.range B).foldl
        (fun st i => runBatchSynapse baseLr mi e i (f i).1 (f i).2 st) s =
      { opt := s.opt
        iter := s.iter + B
        backprops := s.backprops ++
          (List.range B).map fun i => 0.4 * (f i).1 + 0.6 * (f i).2
        logs := s.logs ++
          (List.range B).map fun i => logEntryAt baseLr mi (f i).1 (f i).2 (s.iter + i)
        saves := s.saves
        console := s.console ++
          ((List.range B).filter fun i => i % 10 = 0).map fun i => (e, i) } := by
  induction B with
  | zero => simp
  | succ B ih =>
    rw [List.range_succ, List.foldl_append, ih]
    by_cases hB : B % 10 = 0 <;>
      simp [runBatchSynapse, logEntryAt, hB, List.filter_append, List.range_succ] <;>
      omega

lemma foldBatchesAssd (baseLr : ℝ) (mi : ℕ) (e : ℕ) (f : ℕ → ℝ × ℝ)
    (B : ℕ) (s : TrainState) :
    (List.range B).foldl
        (fun st i => runBatchAssd baseLr mi e i (f i).1 (f i).2 st) s =
      { opt := s.opt
        iter := s.iter + B
        backprops := s.backprops ++
          (List.range B).map fun i => 0.4 * (f i).1 + 0.6 * (f i).2
        logs := s.logs ++
          (List.range B).map fun i => logEntryAt baseLr mi (f i).1 (f i).2 (s.iter + i)
        saves := s.saves
        console := s.console } := by
  induction B with
  | zero => simp
  | succ B ih =>
    rw [List.range_succ, List.foldl_append, ih]
    simp [runBatchAssd, logEntryAt, List.range_succ]
    omega

lemma runEpochSynapse_eq (E B : ℕ) (baseLr : ℝ) (losses : ℕ → ℕ → ℝ × ℝ)
    (e : ℕ) (s : TrainState) :
    runEpochSynapse E B baseLr losses e s =
      { opt := s.opt
        iter := s.iter + B
        backprops := s.backprops ++
          (List.range B).map fun i => 0.4 * (losses e i).1 + 0.6 * (losses e i).2
        logs := s.logs ++
          (List.range B).map fun i =>
            logEntryAt baseLr (E * B) (losses e i).1 (losses e i).2 (s.iter + i)
        saves := s.saves ++
          ((if 80 < e then [ckptName e] else []) ++
            (if E - 1 ≤ e then [ckptName e] else []))
        console := s.console ++
          ((List.range B).filter fun i => i % 10 = 0).map fun i => (e, i) } := by
  unfold runEpochSynapse
  rw [foldBatchesSynapse]
  by_cases h1 : 80 < e <;> by_cases h2 : E - 1 ≤ e <;> simp [h1, h2]

lemma runEpochAssd_eq (E B : ℕ) (baseLr : ℝ) (losses : ℕ → ℕ → ℝ × ℝ)
    (e : ℕ) (s : TrainState) :
    runEpochAssd E B baseLr losses e s =
      { opt := s.opt
        iter := s.iter + B
        backprops := s.backprops ++
          (List.range B).map fun i => 0.4 * (losses e i).1 + 0.6 * (losses e i).2
        logs := s.logs ++
          (List.range B).map fun i =>
            logEntryAt baseLr (E * B) (losses e i).1 (losses e i).2 (s.iter + i)
        saves := s.saves ++
          ((if 80 < e then [ckptName e] else []) ++
            (if E - 1 ≤ e then [ckptName e] else []))
        console := s.console } := by
  unfold runEpochAssd
  rw [foldBatchesAssd]
  by_cases h1 : 80 < e <;> by_cases h2 : E - 1 ≤ e <;> simp [h1, h2]

lemma runTrainerSynapse_eq (E B : ℕ) (baseLr : ℝ) (losses : ℕ → ℕ → ℝ × ℝ) :
    runTrainerSynapse E B baseLr losses =
      { opt := ⟨baseLr, "SGD"⟩
        iter := E * B
        backprops := canonBackprops E B losses
        logs := canonLogs E B baseLr losses
        saves := canonSaves E
        console := canonConsole E B } := by
  unfold runTrainerSynapse
  have main : ∀ E' : ℕ,
      (List.range E').foldl (fun st e => runEpochSynapse E B baseLr losses e st)
        ⟨⟨baseLr, "SGD"⟩, 0, [], [], [], []⟩ =
      { opt := ⟨baseLr, "SGD"⟩
        iter := E' * B
        backprops := (List.range E').flatMap fun e =>
          (List.range B).map fun i => 0.4 * (losses e i).1 + 0.6 * (losses e i).2
        logs := (List.range E').flatMap fun e =>
          (List.range B).map fun i =>
            logEntryAt baseLr (E * B) (losses e i).1 (losses e i).2 (e * B + i)
        saves := (List.range E').flatMap fun e =>
          (if 80 < e then [ckptName e] else []) ++
            (if E - 1 ≤ e then [ckptName e] else [])
        console := (List.range E').flatMap fun e =>
          ((List.range B).filter fun i => i % 10 = 0).map fun i => (e, i) } := by
    intro E'
    induction E' with
    | zero => simp
    | succ E' ih =>
      rw [List.range_succ, List.foldl_append, ih, List.foldl_cons, List.foldl_nil,
        runEpochSynapse_eq]
      simp [List.range_succ, Nat.succ_mul, Nat.add_comm]
  rw [main E]
  rfl

lemma runTrainerAssd_eq (E B : ℕ) (baseLr : ℝ) (losses : ℕ → ℕ → ℝ × ℝ) :
    runTrainerAssd E B baseLr losses =
      { opt := ⟨baseLr, "AdamW"⟩
        iter := E * B
        backprops := canonBackprops E B losses
        logs := canonLogs E B baseLr losses
        saves := canonSaves E
        console := [] } := by
  unfold runTrainerAssd
  have main : ∀ E' : ℕ,
      (List.range E').foldl (fun st e => runEpochAssd E B baseLr losses e st)
        ⟨⟨baseLr, "AdamW"⟩, 0, [], [], [], []⟩ =
      { opt := ⟨baseLr, "AdamW"⟩
        iter := E' * B
        backprops := (List.range E').flatMap fun e =>
          (List.range B).map fun i => 0.4 * (losses e i).1 + 0.6 * (losses e i).2
        logs := (List.range E').flatMap fun e =>
          (List.range B).map fun i =>
            logEntryAt baseLr (E * B) (losses e i).1 (losses e i).2 (e * B + i)
        saves := (List.range E').flatMap fun e =>
          (if 80 < e then [ckptName e] else []) ++
            (if E - 1 ≤ e then [ckptName e] else [])
        console := [] } := by
    intro E'
    induction E' with
    | zero => simp
    | succ E' ih =>
      rw [List.range_succ, List.foldl_append, ih, List.foldl_cons, List.foldl_nil,
        runEpochAssd_eq]
      simp [List.range_succ, Nat.succ_mul, Nat.add_comm]
  rw [main E]
  rfl

/- Generic indexing lemma for a flatMap of equal-length blocks. -/

lemma flatMapBlocks_length {α : Type} (g : ℕ → ℕ → α) (B : ℕ) (E : ℕ) :
    ((List.range E).flatMap fun e => (List.range B).map (g e)).length = E * B := by
  induction E with
  | zero => simp
  | succ E ih =>
    rw [List.range_succ, List.flatMap_append]
    simp [ih, Nat.succ_mul]

lemma flatMapBlocks_getElem {α : Type} (g : ℕ → ℕ → α) (B : ℕ) (E e i : ℕ)
    (he : e < E) (hi : i < B) :
    ((List.range E).flatMap fun e => (List.range B).map (g e))[e * B + i]? =
      some (g e i) := by
  induction E with
  | zero => omega
  | succ E ih =>
    rw [List.range_succ, List.flatMap_append]
    by_cases hcase : e < E
    · rw [List.getElem?_append, if_pos]
      · exact ih hcase
      · rw [flatMapBlocks_length]
        calc e * B + i < e * B + B := by omega
          _ = (e + 1) * B := by ring
          _ ≤ E * B := Nat.mul_le_mul_right B hcase
    · have heE : e = E := by omega
      subst heE
      rw [List.getElem?_append_right (by rw [flatMapBlocks_length]; omega)]
      rw [flatMapBlocks_length]
      simp [List.getElem?_map, List.getElem?_range hi, Nat.add_sub_cancel_left]

/-- C1: for every batch (epoch `e`, batch `i`) processed by the training loop,
in both `trainer_synapse` and `trainer_assd`, the loss value passed to
`loss.backward()` and the value logged as `info/total_loss` both equal exactly
`0.4 * CE + 0.6 * Dice` for that batch. -/
theorem loss_combination (E B : ℕ) (baseLr : ℝ) (losses : ℕ → ℕ → ℝ × ℝ)
    (e i : ℕ) (he : e < E) (hi : i < B) :
    (runTrainerSynapse E B baseLr losses).backprops[e * B + i]? =
      some (0.4 * (losses e i).1 + 0.6 * (losses e i).2) ∧
    ((runTrainerSynapse E B baseLr losses).logs[e * B + i]?).map LogEntry.totalLoss =
      some (0.4 * (losses e i).1 + 0.6 * (losses e i).2) ∧
    (runTrainerAssd E B baseLr losses).backprops[e * B + i]? =
      some (0.4 * (losses e i).1 + 0.6 * (losses e i).2) ∧
    ((runTrainerAssd E B baseLr losses).logs[e * B + i]?).map LogEntry.totalLoss =
      some (0.4 * (losses e i).1 + 0.6 * (losses e i).2) := by
  rw [runTrainerSynapse_eq, runTrainerAssd_eq]
  have hb := flatMapBlocks_getElem
    (fun e i => 0.4 * (losses e i).1 + 0.6 * (losses e i).2) B E e i he hi
  have hl := flatMapBlocks_getElem
    (fun e i => logEntryAt baseLr (E * B) (losses e i).1 (losses e i).2 (e * B + i))
    B E e i he hi
  refine ⟨hb, ?_, hb, ?_⟩ <;>
    · show (canonLogs E B baseLr losses)[e * B + i]?.map LogEntry.totalLoss = _
      rw [canonLogs, hl]
      rfl

/-- C1 witness: a run with one epoch of one batch whose cross-entropy loss is 1
and Dice loss is 2. -/
theorem loss_combination_witness :
    (0:ℕ) < 1 ∧
    (runTrainerSynapse 1 1 1 fun _ _ => ((1:ℝ), 2)).backprops[0]? =
      some ((0.4:ℝ) * 1 + 0.6 * 2) :=
  ⟨Nat.one_pos,
   (loss_combination 1 1 1 (fun _ _ => (1, 2)) 0 0 Nat.one_pos Nat.one_pos).1⟩

/-- C2: the claim that the learning rate used by the optimizer is updated to
`base_lr * (1 - step/total_steps)^0.9` after every optimizer step is refuted
by the code: `lr_` is computed (line 192 / 295) and logged, but never written
back to `optimizer.param_groups`, so the optimizer's learning rate stays at
`base_lr` for the whole run in both trainers.  Concretely, for
`base_lr = 1, max_epochs = 1` and 2 batches per epoch, the logged schedule
value at iteration 1 is `(1 - 1/2) ^ 0.9 ≠ 1`, yet the optimizer still uses
learning rate 1. -/
theorem optimizer_lr_never_updated :
    (∀ (E B : ℕ) (baseLr : ℝ) (losses : ℕ → ℕ → ℝ × ℝ),
      (runTrainerSynapse E B baseLr losses).opt.lr = baseLr ∧
      (runTrainerAssd E B baseLr losses).opt.lr = baseLr) ∧
    ((runTrainerSynapse 1 2 1 fun _ _ => (0, 0)).logs[1]?).map LogEntry.lr =
      some ((1 - (1:ℝ) / 2) ^ (0.9:ℝ)) ∧
    (1 - (1:ℝ) / 2) ^ (0.9:ℝ) ≠ 1 := by
  refine ⟨?_, ?_, ?_⟩
  · intro E B baseLr losses
    rw [runTrainerSynapse_eq, runTrainerAssd_eq]
    exact ⟨rfl, rfl⟩
  · rw [runTrainerSynapse_eq]
    show (canonLogs 1 2 1 fun _ _ => (0, 0))[1]?.map LogEntry.lr = _
    have h := flatMapBlocks_getElem
      (fun e i => logEntryAt 1 (1 * 2) ((fun (_ _ : ℕ) => ((0:ℝ), (0:ℝ))) e i).1
        ((fun (_ _ : ℕ) => ((0:ℝ), (0:ℝ))) e i).2 (e * 2 + i))
      2 1 0 1 Nat.one_pos Nat.one_lt_two
    rw [canonLogs]
    rw [show (0 * 2 + 1 : ℕ) = 1 from rfl] at h
    rw [h]
    show some (lrSched 1 2 1) = _
    rw [lrSched]
    norm_num
  · have : (1 - (1:ℝ) / 2) ^ (0.9:ℝ) < 1 :=
      Real.rpow_lt_one (by norm_num) (by norm_num) (by norm_num)
    exact ne_of_lt this

/-- C3: with `max_epochs = 90`, both trainers write checkpoint files exactly
at epochs 81..89 (the final epoch is written twice, to the same path, because
both save conditions fire there), i.e. 9 distinct files and none earlier; in
general a checkpoint is saved at every executed epoch whose index exceeds 80,
and always at the final epoch index `max_epochs - 1`. -/
theorem checkpoint_policy :
    (∀ (B : ℕ) (baseLr : ℝ) (losses : ℕ → ℕ → ℝ × ℝ),
      (runTrainerSynapse 90 B baseLr losses).saves =
        ["epoch_81.pth", "epoch_82.pth", "epoch_83.pth", "epoch_84.pth",
         "epoch_85.pth", "epoch_86.pth", "epoch_87.pth", "epoch_88.pth",
         "epoch_89.pth", "epoch_89.pth"] ∧
      (runTrainerSynapse 90 B baseLr losses).saves.dedup.length = 9 ∧
      (runTrainerAssd 90 B baseLr losses).saves =
        (runTrainerSynapse 90 B baseLr losses).saves) ∧
    (∀ (E B : ℕ) (baseLr : ℝ) (losses : ℕ → ℕ → ℝ × ℝ) (e : ℕ),
      80 < e → e < E →
      ckptName e ∈ (runTrainerSynapse E B baseLr losses).saves) ∧
    (∀ (E B : ℕ) (baseLr : ℝ) (losses : ℕ → ℕ → ℝ × ℝ),
      0 < E → ckptName (E - 1) ∈ (runTrainerSynapse E B baseLr losses).saves) := by
  refine ⟨?_, ?_, ?_⟩
  · intro B baseLr losses
    rw [runTrainerSynapse_eq, runTrainerAssd_eq]
    refine ⟨?_, ?_, rfl⟩
    · show canonSaves 90 = _
      decide
    · show (canonSaves 90).dedup.length = 9
      decide
  · intro E B baseLr losses e h80 heE
    rw [runTrainerSynapse_eq]
    show ckptName e ∈ canonSaves E
    rw [canonSaves, List.mem_flatMap]
    exact ⟨e, by simpa using heE, by simp [h80]⟩
  · intro E B baseLr losses hE
    rw [runTrainerSynapse_eq]
    show ckptName (E - 1) ∈ canonSaves E
    rw [canonSaves, List.mem_flatMap]
    exact ⟨E - 1, by simpa using Nat.sub_lt hE Nat.one_pos, by simp⟩

/-- C3 witness: with `max_epochs = 90`, epoch 85 (which exceeds 80) and the
final epoch 89 are both checkpointed. -/
theorem checkpoint_policy_witness :
    (80:ℕ) < 85 ∧ (85:ℕ) < 90 ∧ (0:ℕ) < 90 ∧
    ckptName 85 ∈ (runTrainerSynapse 90 1 0 fun _ _ => (0, 0)).saves ∧
    ckptName 89 ∈ (runTrainerSynapse 90 1 0 fun _ _ => (0, 0)).saves :=
  ⟨by norm_num, by norm_num, by norm_num,
   checkpoint_policy.2.1 90 1 0 (fun _ _ => (0, 0)) 85 (by norm_num) (by norm_num),
   checkpoint_policy.2.2 90 1 0 (fun _ _ => (0, 0)) (by norm_num)⟩

/-- C5: the learning-rate schedule
`lr(step) = base_lr * (1 - step/total_steps)^0.9` is a pure function of the
step counter and the total step count with `lr(0) = base_lr`, monotonically
non-increasing on `0 ≤ step < total_steps`, and `lr(total_steps - 1) → 0` as
the total number of steps grows (the "approximately 0" clause). -/
theorem lrSched_schedule_props (base : ℝ) (T : ℕ) (hbase : 0 ≤ base)
    (hT : 0 < T) :
    lrSched base T 0 = base ∧
    (∀ s t : ℕ, s ≤ t → t < T → lrSched base T t ≤ lrSched base T s) ∧
    Filter.Tendsto (fun n : ℕ => lrSched base n (n - 1)) Filter.atTop (nhds 0) := by
  refine ⟨?_, ?_, ?_⟩
  · simp [lrSched, Real.one_rpow]
  · intro s t hst htT
    unfold lrSched
    have hTpos : (0:ℝ) < T := by exact_mod_cast hT
    have h1 : (t:ℝ) / T < 1 := by
      rw [div_lt_one hTpos]
      exact_mod_cast htT
    have h2 : (s:ℝ) / T ≤ (t:ℝ) / T := by gcongr
    have h3 : (0:ℝ) ≤ 1 - (t:ℝ) / T := by linarith
    have h4 : 1 - (t:ℝ) / T ≤ 1 - (s:ℝ) / T := by linarith
    exact mul_le_mul_of_nonneg_left (Real.rpow_le_rpow h3 h4 (by norm_num)) hbase
  · have h1 : Filter.Tendsto (fun n : ℕ => 1 / (n:ℝ)) Filter.atTop (nhds 0) :=
      tendsto_one_div_atTop_nhds_zero_nat
    have h2 : ContinuousAt (fun x : ℝ => x ^ (0.9:ℝ)) 0 :=
      Real.continuousAt_rpow_const 0 0.9 (Or.inr (by norm_num))
    have h3 : Filter.Tendsto (fun n : ℕ => (1 / (n:ℝ)) ^ (0.9:ℝ)) Filter.atTop
        (nhds ((0:ℝ) ^ (0.9:ℝ))) := h2.tendsto.comp h1
    rw [Real.zero_rpow (by norm_num)] at h3
    have key := h3.const_mul base
    rw [mul_zero] at key
    refine Filter.Tendsto.congr' ?_ key
    filter_upwards [Filter.eventually_ge_atTop 1] with n hn
    have hn0 : (n:ℝ) ≠ 0 := by
      have hpos : (0:ℕ) < n := hn
      exact_mod_cast hpos.ne'
    rw [lrSched, Nat.cast_sub hn]
    congr 2
    field_simp

/-- C5 witness: instantiated at `base_lr = 1`, `total_steps = 2`. -/
theorem lrSched_schedule_props_witness :
    (0:ℝ) ≤ 1 ∧ (0:ℕ) < 2 ∧
    (lrSched 1 2 0 = 1 ∧
     (∀ s t : ℕ, s ≤ t → t < 2 → lrSched 1 2 t ≤ lrSched 1 2 s) ∧
     Filter.Tendsto (fun n : ℕ => lrSched 1 n (n - 1)) Filter.atTop (nhds 0)) :=
  ⟨zero_le_one, by norm_num, lrSched_schedule_props 1 2 zero_le_one (by norm_num)⟩

/-- C10: apart from dataset construction, input preprocessing, optimizer
choice and the periodic console print, `trainer_synapse` and `trainer_assd`
implement the same per-step semantics: driven by the same loss oracle they
backpropagate the same loss values, write the identical scalar log stream
(same `0.4*CE + 0.6*Dice` totals and the same logged learning-rate values),
and write the identical checkpoint stream, whose file names are
`epoch_<n>.pth`. -/
theorem trainers_per_step_equivalent (E B : ℕ) (baseLr : ℝ)
    (losses : ℕ → ℕ → ℝ × ℝ) :
    (runTrainerSynapse E B baseLr losses).logs =
      (runTrainerAssd E B baseLr losses).logs ∧
    (runTrainerSynapse E B baseLr losses).backprops =
      (runTrainerAssd E B baseLr losses).backprops ∧
    (runTrainerSynapse E B baseLr losses).saves =
      (runTrainerAssd E B baseLr losses).saves ∧
    (runTrainerSynapse E B baseLr losses).saves = canonSaves E := by
  rw [runTrainerSynapse_eq, runTrainerAssd_eq]
  exact ⟨rfl, rfl, rfl, rfl⟩

/- ================================================================
   Part 2: the KDloss module (trainer_unet.py, lines 25-73)
   ================================================================ -/

/-- A 4-dimensional tensor (batch, channel, height, width), modelled as its
shape together with an entry function; entries outside the index ranges are
irrelevant.  Entries are real numbers. -/
structure Tensor4 where
  n : ℕ
  c : ℕ
  h : ℕ
  w : ℕ
  data : ℕ → ℕ → ℕ → ℕ → ℝ

/-- Number of elements. -/
def Tensor4.numel (t : Tensor4) : ℕ := t.n * t.c * t.h * t.w

/-- `tensor.detach()`: identical values, only the autograd graph changes. -/
def Tensor4.detach (t : Tensor4) : Tensor4 := t

/-- Sum over all (valid) positions of the squared entry-wise difference. -/
noncomputable def sqDiffSum (x y : Tensor4) : ℝ :=
  ∑ i ∈ Finset.range x.n, ∑ j ∈ Finset.range x.c,
    ∑ p ∈ Finset.range x.h, ∑ q ∈ Finset.range x.w,
      (x.data i j p q - y.data i j p q) ^ 2

/-- `F.mse_loss(x, y)` with the default mean reduction: defined when the two
shapes agree (the only way the repository calls it), the mean of the squared
entry-wise differences. -/
noncomputable def mse_loss (x y : Tensor4) : Option ℝ :=
  if x.n = y.n ∧ x.c = y.c ∧ x.h = y.h ∧ x.w = y.w then
    some (sqDiffSum x y / (x.numel : ℝ))
  else none

/-- The L2 norm of the spatial slice at batch `i`, channel `j`:
the normalisation denominator of `F.normalize(f_s, p=2, dim=(2,3))`. -/
noncomputable def spatialNorm (f : Tensor4) (i j : ℕ) : ℝ :=
  Real.sqrt (∑ p ∈ Finset.range f.h, ∑ q ∈ Finset.range f.w, (f.data i j p q) ^ 2)

/-- `F.normalize(f_s, p=2, dim=(2,3))` with the default `eps = 1e-12`:
each spatial slice is divided by its L2 norm clamped below by `eps`. -/
noncomputable def normalize2 (f : Tensor4) : Tensor4 :=
  { f with data := fun i j p q => f.data i j p q / max (spatialNorm f i j) 1e-12 }

/-- `.mean([0, 2, 3])`: the per-channel mean over batch and space. -/
noncomputable def channelMean (f : Tensor4) (j : ℕ) : ℝ :=
  (∑ i ∈ Finset.range f.n, ∑ p ∈ Finset.range f.h, ∑ q ∈ Finset.range f.w,
      f.data i j p q) / ((f.n * f.h * f.w : ℕ) : ℝ)

/-- The index permutation returned by
`torch.sort(key, dim=0, descending=True)` on a vector of length `k`:
position `j` of the sorted order holds original index `argsortDesc k key j`.
(`torch.sort` leaves the order of equal keys unspecified; any fixed
permutation that sorts the keys is a faithful model.) -/
noncomputable def argsortDesc (k : ℕ) (key : ℕ → ℝ) : ℕ → ℕ :=
  fun j => if hj : j < k
    then (Tuple.sort (fun t : Fin k => -(key t.val)) ⟨j, hj⟩ : Fin k).val
    else j

/-- `torch.index_select(f, 1, indices)`: reorder the channels. -/
def indexSelectChannels (f : Tensor4) (σ : ℕ → ℕ) : Tensor4 :=
  { f with data := fun i j p q => f.data i (σ j) p q }

/-- The channel slice `f[:, a:b, :, :]`. -/
def channelSlice (f : Tensor4) (a b : ℕ) : Tensor4 :=
  { n := f.n, c := b - a, h := f.h, w := f.w
    data := fun i j p q => f.data i (a + j) p q }

/-- The channel selection `f[:, idx, :, :]` for an index list `idx`. -/
def channelSelect (f : Tensor4) (idx : List ℕ) : Tensor4 :=
  { n := f.n, c := idx.length, h := f.h, w := f.w
    data := fun i j p q => f.data i (idx.getD j 0) p q }

/-- `F.adaptive_avg_pool2d(f, (oh, ow))`: output cell `(p, q)` is the mean of
the input window with rows `[p*h/oh, ceil((p+1)*h/oh))` and columns
`[q*w/ow, ceil((q+1)*w/ow))`. -/
noncomputable def adaptive_avg_pool2d (f : Tensor4) (oh ow : ℕ) : Tensor4 :=
  { n := f.n, c := f.c, h := oh, w := ow
    data := fun i j p q =>
      let rs := p * f.h / oh
      let re := ((p + 1) * f.h + oh - 1) / oh
      let cs := q * f.w / ow
      let ce := ((q + 1) * f.w + ow - 1) / ow
      (∑ r ∈ Finset.Ico rs re, ∑ s ∈ Finset.Ico cs ce, f.data i j r s) /
        (((re - rs) * (ce - cs) : ℕ) : ℝ) }

/-- `KDloss.intra_fd` (trainer_unet.py lines 46-50): sort the channels by the
per-channel mean of the spatially L2-normalised activations, descending;
then the mean squared error between the first half `[0, C//2)` and the second
half `[C//2, C)` of the reordered channels of the ORIGINAL tensor.
`none` models the shape error raised when the two halves differ in size. -/
noncomputable def intra_fd (f : Tensor4) : Option ℝ :=
  let σ := argsortDesc f.c (channelMean (normalize2 f))
  let g := indexSelectChannels f σ
  mse_loss (channelSlice g 0 (g.c / 2)) (channelSlice g (g.c / 2) g.c)

/-- `KDloss.inter_fd` (trainer_unet.py lines 31-44): `s_H` and `t_H` are read
before any pooling; whichever input has the larger spatial size is pooled by
`adaptive_avg_pool2d` to the square of the smaller height; then the mean
squared error between the channel selections `f_s[:, idx_s]` and
`f_t[:, idx_t].detach()`.  The index lists drawn by
`random.sample(range(C), min(s_C, t_C))` are passed explicitly. -/
noncomputable def inter_fd (fs ft : Tensor4) (idxS idxT : List ℕ) : Option ℝ :=
  let fs2 := if ft.h < fs.h then adaptive_avg_pool2d fs ft.h ft.h else fs
  let ft2 := if fs.h < ft.h then adaptive_avg_pool2d ft fs.h fs.h else ft
  mse_loss (channelSelect fs2 idxS) (Tensor4.detach (channelSelect ft2 idxT))

/-- `KDloss.forward` (trainer_unet.py lines 52-73): the four encoder features,
the three decoder features and the final upsampled feature;
`loss  = (intra(f1)+intra(f2)+intra(f3)+intra(f4)) / 4` (line 64),
`loss += (intra(f1_d)+intra(f2_d)+intra(f3_d)) / 3` (line 65),
`loss += (seven inter terms against final_up) / 7` (lines 67-68),
`loss *= lambda_x` (line 72).  The seven `random.sample` draws inside the
seven `inter_fd` calls are passed via `idx`, in call order. -/
noncomputable def kdForward (lam : ℝ) (f1 f2 f3 f4 fd1 fd2 fd3 fu : Tensor4)
    (idx : ℕ → List ℕ × List ℕ) : Option ℝ := do
  let a1 ← intra_fd f1
  let a2 ← intra_fd f2
  let a3 ← intra_fd f3
  let a4 ← intra_fd f4
  let loss := (a1 + a2 + a3 + a4) / 4
  let b1 ← intra_fd fd1
  let b2 ← intra_fd fd2
  let b3 ← intra_fd fd3
  let loss := loss + (b1 + b2 + b3) / 3
  let c1 ← inter_fd fd1 fu (idx 0).1 (idx 0).2
  let c2 ← inter_fd fd2 fu (idx 1).1 (idx 1).2
  let c3 ← inter_fd fd3 fu (idx 2).1 (idx 2).2
  let c4 ← inter_fd f1 fu (idx 3).1 (idx 3).2
  let c5 ← inter_fd f2 fu (idx 4).1 (idx 4).2
  let c6 ← inter_fd f3 fu (idx 5).1 (idx 5).2
  let c7 ← inter_fd f4 fu (idx 6).1 (idx 6).2
  let loss := loss + (c1 + c2 + c3 + c4 + c5 + c6 + c7) / 7
  some (loss * lam)

/- Helper lemmas about the sorting permutation and mse. -/

lemma argsortDesc_lt (k : ℕ) (key : ℕ → ℝ) (j : ℕ) (hj : j < k) :
    argsortDesc k key j < k := by
  unfold argsortDesc
  rw [dif_pos hj]
  exact (Tuple.sort (fun t : Fin k => -(key t.val)) ⟨j, hj⟩).isLt

lemma argsortDesc_inj (k : ℕ) (key : ℕ → ℝ) (j j' : ℕ) (hj : j < k)
    (hj' : j' < k) (h : argsortDesc k key j = argsortDesc k key j') : j = j' := by
  unfold argsortDesc at h
  rw [dif_pos hj, dif_pos hj'] at h
  have h2 : (⟨j, hj⟩ : Fin k) = ⟨j', hj'⟩ :=
    (Tuple.sort (fun t : Fin k => -(key t.val))).injective (Fin.val_injective h)
  simpa using h2

lemma sqDiffSum_nonneg (x y : Tensor4) : 0 ≤ sqDiffSum x y := by
  unfold sqDiffSum
  exact Finset.sum_nonneg fun i _ => Finset.sum_nonneg fun j _ =>
    Finset.sum_nonneg fun p _ => Finset.sum_nonneg fun q _ => sq_nonneg _

lemma mse_loss_comm (x y : Tensor4) : mse_loss x y = mse_loss y x := by
  unfold mse_loss
  by_cases hc : x.n = y.n ∧ x.c = y.c ∧ x.h = y.h ∧ x.w = y.w
  · obtain ⟨h1, h2, h3, h4⟩ := hc
    rw [if_pos ⟨h1, h2, h3, h4⟩, if_pos ⟨h1.symm, h2.symm, h3.symm, h4.symm⟩]
    have hs : sqDiffSum x y = sqDiffSum y x := by
      unfold sqDiffSum
      rw [h1, h2, h3, h4]
      exact Finset.sum_congr rfl fun i _ => Finset.sum_congr rfl fun j _ =>
        Finset.sum_congr rfl fun p _ => Finset.sum_congr rfl fun q _ => by ring
    have hn : x.numel = y.numel := by
      unfold Tensor4.numel
      rw [h1, h2, h3, h4]
    rw [hs, hn]
  · rw [if_neg hc, if_neg fun hc2 =>
      hc ⟨hc2.1.symm, hc2.2.1.symm, hc2.2.2.1.symm, hc2.2.2.2.symm⟩]

lemma mse_loss_nonneg (x y : Tensor4) (r : ℝ) (h : mse_loss x y = some r) :
    0 ≤ r := by
  unfold mse_loss at h
  split at h
  · rw [Option.some.injEq] at h
    subst h
    exact div_nonneg (sqDiffSum_nonneg _ _) (Nat.cast_nonneg _)
  · exact absurd h (by simp)

/-- C7: whenever `KDloss.intra_fd` returns a scalar on a 4-dimensional
feature map, that scalar is non-negative (it is a mean of squares). -/
theorem intra_fd_nonneg (f : Tensor4) (r : ℝ) (h : intra_fd f = some r) :
    0 ≤ r := by
  unfold intra_fd at h
  exact mse_loss_nonneg _ _ _ h

/- Small concrete feature maps used as witnesses. -/

/-- A 1×2×1×1 tensor with both channels constantly `a`. -/
def constT2 (a : ℝ) : Tensor4 := ⟨1, 2, 1, 1, fun _ _ _ _ => a⟩

/-- A 1×2×1×1 tensor with channel 0 equal to `a` and channel 1 equal to `b`. -/
def pairT (a b : ℝ) : Tensor4 := ⟨1, 2, 1, 1, fun _ j _ _ => if j = 0 then a else b⟩

/-- A 1×1×1×1 tensor with value `a`. -/
def constT1 (a : ℝ) : Tensor4 := ⟨1, 1, 1, 1, fun _ _ _ _ => a⟩

lemma intra_fd_constT2 (a : ℝ) : intra_fd (constT2 a) = some 0 := by
  simp [intra_fd, constT2, mse_loss, channelSlice, indexSelectChannels,
    sqDiffSum, Tensor4.numel]

lemma pairT_n (a b : ℝ) : (pairT a b).n = 1 := rfl

lemma pairT_c (a b : ℝ) : (pairT a b).c = 2 := rfl

lemma pairT_h (a b : ℝ) : (pairT a b).h = 1 := rfl

lemma pairT_w (a b : ℝ) : (pairT a b).w = 1 := rfl

lemma pairT_data (a b : ℝ) (i j p q : ℕ) :
    (pairT a b).data i j p q = if j = 0 then a else b := rfl

lemma intra_fd_pairT (a b : ℝ) : intra_fd (pairT a b) = some ((a - b) ^ 2) := by
  have h0 : argsortDesc 2 (channelMean (normalize2 (pairT a b))) 0 < 2 :=
    argsortDesc_lt 2 _ 0 (by norm_num)
  have h1 : argsortDesc 2 (channelMean (normalize2 (pairT a b))) 1 < 2 :=
    argsortDesc_lt 2 _ 1 (by norm_num)
  have hne : argsortDesc 2 (channelMean (normalize2 (pairT a b))) 0 ≠
      argsortDesc 2 (channelMean (normalize2 (pairT a b))) 1 := by
    intro h
    exact absurd (argsortDesc_inj 2 _ 0 1 (by norm_num) (by norm_num) h)
      (by norm_num)
  have hcase : (argsortDesc 2 (channelMean (normalize2 (pairT a b))) 0 = 0 ∧
      argsortDesc 2 (channelMean (normalize2 (pairT a b))) 1 = 1) ∨
      (argsortDesc 2 (channelMean (normalize2 (pairT a b))) 0 = 1 ∧
      argsortDesc 2 (channelMean (normalize2 (pairT a b))) 1 = 0) := by omega
  rcases hcase with ⟨ha, hb⟩ | ⟨ha, hb⟩ <;>
    simp [intra_fd, mse_loss, channelSlice, indexSelectChannels, sqDiffSum,
      Tensor4.numel, pairT_n, pairT_c, pairT_h, pairT_w, pairT_data, ha, hb] <;>
    ring

/-- C7 witness: on a concrete 1×2×1×1 constant feature map, `intra_fd`
returns the scalar 0, which is non-negative. -/
theorem intra_fd_nonneg_witness :
    intra_fd (constT2 2) = some 0 ∧ (0:ℝ) ≤ 0 :=
  ⟨intra_fd_constT2 2, intra_fd_nonneg (constT2 2) 0 (intra_fd_constT2 2)⟩

/-- C8: the value of `KDloss.inter_fd` on two feature maps of different
spatial sizes is invariant under swapping the two arguments (together with
their respective random channel selections, which are held fixed): whichever
argument is larger gets pooled down to the smaller resolution, and the mean
squared error is symmetric in value (`detach` only affects gradients). -/
theorem inter_fd_symm_under_pooling (fs ft : Tensor4) (idxS idxT : List ℕ)
    (h : fs.h ≠ ft.h) :
    inter_fd fs ft idxS idxT = inter_fd ft fs idxT idxS := by
  unfold inter_fd Tensor4.detach
  rcases h.lt_or_lt with hlt | hlt
  · rw [if_neg (by omega), if_pos hlt]
    exact mse_loss_comm _ _
  · rw [if_pos hlt, if_neg (by omega)]
    exact mse_loss_comm _ _

/-- A 1×1×2×2 zero tensor (larger spatial size than `constT1 0`). -/
def tallT : Tensor4 := ⟨1, 1, 2, 2, fun _ _ _ _ => 0⟩

/-- C8 witness: concrete maps with spatial sizes 2 and 1. -/
theorem inter_fd_symm_witness :
    tallT.h ≠ (constT1 0).h ∧
    inter_fd tallT (constT1 0) [0] [0] = inter_fd (constT1 0) tallT [0] [0] :=
  ⟨by norm_num [tallT, constT1],
   inter_fd_symm_under_pooling tallT (constT1 0) [0] [0]
     (by norm_num [tallT, constT1])⟩

/- Evaluation of `inter_fd` on the concrete witness maps (equal spatial sizes,
so no pooling; channel selection `[0]` on both sides). -/

lemma inter_fd_pairT_constT1 (a b x : ℝ) :
    inter_fd (pairT a b) (constT1 x) [0] [0] = some ((a - x) ^ 2) := by
  simp [inter_fd, Tensor4.detach, mse_loss, channelSelect, sqDiffSum,
    Tensor4.numel, pairT_n, pairT_c, pairT_h, pairT_w, pairT_data, constT1]

lemma inter_fd_constT2_constT1 (a x : ℝ) :
    inter_fd (constT2 a) (constT1 x) [0] [0] = some ((a - x) ^ 2) := by
  simp [inter_fd, Tensor4.detach, mse_loss, channelSelect, sqDiffSum,
    Tensor4.numel, constT2, constT1]

lemma intra_eval_const2 : intra_fd (constT2 (2:ℝ)) = some 0 := intra_fd_constT2 2

lemma intra_eval_pair2 : intra_fd (pairT (2:ℝ) 0) = some 4 := by
  rw [intra_fd_pairT]
  norm_num

lemma inter_eval_pair2 : inter_fd (pairT (2:ℝ) 0) (constT1 2) [0] [0] = some 0 := by
  rw [inter_fd_pairT_constT1]
  norm_num

lemma inter_eval_const2 : inter_fd (constT2 (2:ℝ)) (constT1 2) [0] [0] = some 0 := by
  rw [inter_fd_constT2_constT1]
  norm_num

/-- C6 counterexample: `KDloss.forward` does NOT average the intra-feature
term over all seven supplied feature maps.  With the four encoder maps
constant (intra term 0 each), the three decoder maps `pairT 2 0` (intra term
4 each), all seven inter terms 0 and `lambda_x = 1`, the code returns
`(0+0+0+0)/4 + (4+4+4)/3 + 0/7 = 4`, while a seven-way intra average would
give `(0+0+0+0+4+4+4)/7 + 0/7 = 12/7 ≠ 4`. -/
theorem kdForward_not_seven_way_average :
    intra_fd (constT2 2) = some 0 ∧
    intra_fd (pairT 2 0) = some 4 ∧
    inter_fd (pairT 2 0) (constT1 2) [0] [0] = some 0 ∧
    inter_fd (constT2 2) (constT1 2) [0] [0] = some 0 ∧
    kdForward 1 (constT2 2) (constT2 2) (constT2 2) (constT2 2)
      (pairT 2 0) (pairT 2 0) (pairT 2 0) (constT1 2) (fun _ => ([0], [0])) =
      some 4 ∧
    ((0 + 0 + 0 + 0 + 4 + 4 + 4 : ℝ) / 7 + (0 + 0 + 0 + 0 + 0 + 0 + 0) / 7) * 1
      ≠ 4 := by
  refine ⟨intra_eval_const2, intra_eval_pair2, inter_eval_pair2,
    inter_eval_const2, ?_, by norm_num⟩
  simp [kdForward, intra_eval_const2, intra_eval_pair2, inter_eval_pair2,
    inter_eval_const2]
  norm_num

/-- C6 (amended): `KDloss.forward` returns the intra-feature term averaged
over the four encoder maps, PLUS the intra-feature term averaged separately
over the three decoder maps, plus the inter-feature term averaged over the
seven encoder/decoder-to-reference pairs, the whole sum scaled by
`lambda_x`. -/
theorem kdForward_grouped_averages (lam : ℝ)
    (f1 f2 f3 f4 fd1 fd2 fd3 fu : Tensor4) (idx : ℕ → List ℕ × List ℕ)
    (a1 a2 a3 a4 b1 b2 b3 c1 c2 c3 c4 c5 c6 c7 : ℝ)
    (h1 : intra_fd f1 = some a1) (h2 : intra_fd f2 = some a2)
    (h3 : intra_fd f3 = some a3) (h4 : intra_fd f4 = some a4)
    (h5 : intra_fd fd1 = some b1) (h6 : intra_fd fd2 = some b2)
    (h7 : intra_fd fd3 = some b3)
    (h8 : inter_fd fd1 fu (idx 0).1 (idx 0).2 = some c1)
    (h9 : inter_fd fd2 fu (idx 1).1 (idx 1).2 = some c2)
    (h10 : inter_fd fd3 fu (idx 2).1 (idx 2).2 = some c3)
    (h11 : inter_fd f1 fu (idx 3).1 (idx 3).2 = some c4)
    (h12 : inter_fd f2 fu (idx 4).1 (idx 4).2 = some c5)
    (h13 : inter_fd f3 fu (idx 5).1 (idx 5).2 = some c6)
    (h14 : inter_fd f4 fu (idx 6).1 (idx 6).2 = some c7) :
    kdForward lam f1 f2 f3 f4 fd1 fd2 fd3 fu idx =
      some (((a1 + a2 + a3 + a4) / 4 + (b1 + b2 + b3) / 3 +
        (c1 + c2 + c3 + c4 + c5 + c6 + c7) / 7) * lam) := by
  simp [kdForward, h1, h2, h3, h4, h5, h6, h7, h8, h9, h10, h11, h12, h13, h14]

/-- C6 witness for the amended statement, at the counterexample's inputs. -/
theorem kdForward_grouped_averages_witness :
    intra_fd (constT2 2) = some 0 ∧
    intra_fd (pairT 2 0) = some 4 ∧
    kdForward 1 (constT2 2) (constT2 2) (constT2 2) (constT2 2)
      (pairT 2 0) (pairT 2 0) (pairT 2 0) (constT1 2) (fun _ => ([0], [0])) =
      some ((((0:ℝ) + 0 + 0 + 0) / 4 + (4 + 4 + 4) / 3 +
        (0 + 0 + 0 + 0 + 0 + 0 + 0) / 7) * 1) :=
  ⟨intra_eval_const2, intra_eval_pair2,
   kdForward_grouped_averages 1 (constT2 2) (constT2 2) (constT2 2) (constT2 2)
     (pairT 2 0) (pairT 2 0) (pairT 2 0) (constT1 2) (fun _ => ([0], [0]))
     0 0 0 0 4 4 4 0 0 0 0 0 0 0
     intra_eval_const2 intra_eval_const2 intra_eval_const2 intra_eval_const2
     intra_eval_pair2 intra_eval_pair2 intra_eval_pair2
     inter_eval_pair2 inter_eval_pair2 inter_eval_pair2
     inter_eval_const2 inter_eval_const2 inter_eval_const2 inter_eval_const2⟩

/- ================================================================
   Part 3: shape semantics of UNet_STA (unet/unet_stvit.py)
   and the device-availability check (trainer_unet.py lines 135-142)
   ================================================================ -/

/-- The shape (N, C, H, W) of a 4-dimensional tensor. -/
structure Shape where
  n : ℕ
  c : ℕ
  h : ℕ
  w : ℕ
  deriving DecidableEq

/-- Output shape of `nn.Conv2d(inC, outC, kernel_size=k, padding=p)` with
stride 1: defined when the channel count matches and the padded input is at
least as large as the kernel; each spatial size `d` becomes `d + 2p - k + 1`. -/
def conv2dShape (inC outC k p : ℕ) (s : Shape) : Option Shape :=
  if s.c = inC ∧ k ≤ s.h + 2 * p ∧ k ≤ s.w + 2 * p then
    some ⟨s.n, outC, s.h + 2 * p + 1 - k, s.w + 2 * p + 1 - k⟩
  else none

/-- Output shape of `nn.BatchNorm2d(features)`: shape-preserving, requires the
matching channel count. -/
def batchNorm2dShape (features : ℕ) (s : Shape) : Option Shape :=
  if s.c = features then some s else none

/-- Output shape of `nn.MaxPool2d((2, 2))`: halves both spatial sizes
(floor), defined when both are at least 2. -/
def maxPool2dShape (s : Shape) : Option Shape :=
  if 2 ≤ s.h ∧ 2 ≤ s.w then some ⟨s.n, s.c, s.h / 2, s.w / 2⟩ else none

/-- Output shape of
`nn.ConvTranspose2d(inC, outC, kernel_size=2, stride=2, padding=0)`:
doubles both spatial sizes (`(d-1)*2 + 2 = 2d`). -/
def convTranspose2dShape (inC outC : ℕ) (s : Shape) : Option Shape :=
  if s.c = inC ∧ 1 ≤ s.h ∧ 1 ≤ s.w then
    some ⟨s.n, outC, 2 * s.h, 2 * s.w⟩
  else none

/-- Output shape of `torch.cat([x, skip], axis=1)`: channel counts add,
defined when the other three dimensions agree. -/
def catShape (x skip : Shape) : Option Shape :=
  if x.n = skip.n ∧ x.h = skip.h ∧ x.w = skip.w then
    some ⟨x.n, x.c + skip.c, x.h, x.w⟩
  else none

/-- Shape behaviour of `conv_block` (unet_stvit.py lines 11-30):
Conv2d(in_c, out_c, 3, padding=1), BatchNorm2d, ReLU,
Conv2d(out_c, out_c, 3, padding=1), BatchNorm2d, ReLU.
ReLU is shape-preserving. -/
def conv_blockShape (inC outC : ℕ) (s : Shape) : Option Shape := do
  let x ← conv2dShape inC outC 3 1 s
  let x ← batchNorm2dShape outC x
  let x ← conv2dShape outC outC 3 1 x
  let x ← batchNorm2dShape outC x
  some x

/-- Shape behaviour of `encoder_block` (lines 36-46): returns the pre-pooling
feature `x` (the skip connection) and the pooled feature `p`. -/
def encoder_blockShape (inC outC : ℕ) (s : Shape) : Option (Shape × Shape) := do
  let x ← conv_blockShape inC outC s
  let p ← maxPool2dShape x
  some (x, p)

/-- Shape behaviour of `decoder_block` (lines 54-66):
ConvTranspose2d(in_c, out_c, 2, stride=2), concatenation with the skip
connection along channels, conv_block(out_c + out_c, out_c). -/
def decoder_blockShape (inC outC : ℕ) (inputs skip : Shape) : Option Shape := do
  let x ← convTranspose2dShape inC outC inputs
  let x ← catShape x skip
  conv_blockShape (outC + outC) outC x

/-- Modelled from the spec: the stoken attention-refinement block
(`BasicLayer`, imported from `unet/stvit.py`, a file that is not part of the
sources) "refines convolutional feature maps" by transformer-style attention
over super-token groupings and passes its result to the next stage in place
of its input; it preserves the tensor shape. -/
def basicLayerShape (s : Shape) : Shape := s

/-- Shape behaviour of `UNet_STA.forward` (unet_stvit.py lines 204-237) for a
network built by `UNet_STA.__init__(n_in, n_class)` (lines 120-201): four
encoder stages with channel counts 64, 128, 256, 512 (each followed by its
`BasicLayer`), bottleneck conv_block(512, 1024), four decoder stages
1024 to 512 to 256 to 128 to 64 with the matching skip connections (each
followed by its `BasicLayer`), and the final
`nn.Conv2d(64, n_class, kernel_size=1, padding=0)`. -/
def unetForwardShape (nIn nClass : ℕ) (s : Shape) : Option Shape := do
  let e1 ← encoder_blockShape nIn 64 s
  let s1 := e1.1
  let p1 := basicLayerShape e1.2
  let e2 ← encoder_blockShape 64 128 p1
  let s2 := e2.1
  let p2 := basicLayerShape e2.2
  let e3 ← encoder_blockShape 128 256 p2
  let s3 := e3.1
  let p3 := basicLayerShape e3.2
  let e4 ← encoder_blockShape 256 512 p3
  let s4 := e4.1
  let p4 := basicLayerShape e4.2
  let b ← conv_blockShape 512 1024 p4
  let d1 ← decoder_blockShape 1024 512 b s4
  let d1 := basicLayerShape d1
  let d2 ← decoder_blockShape 512 256 d1 s3
  let d2 := basicLayerShape d2
  let d3 ← decoder_blockShape 256 128 d2 s2
  let d3 := basicLayerShape d3
  let d4 ← decoder_blockShape 128 64 d3 s1
  let d4 := basicLayerShape d4
  conv2dShape 64 nClass 1 0 d4

lemma conv2dShape_31_eq (inC outC N h w : ℕ) (hh : 1 ≤ h) (hw : 1 ≤ w) :
    conv2dShape inC outC 3 1 ⟨N, inC, h, w⟩ = some ⟨N, outC, h, w⟩ := by
  rw [conv2dShape, if_pos ⟨rfl, by simp; omega, by simp; omega⟩]
  have e1 : h + 2 * 1 + 1 - 3 = h := by omega
  have e2 : w + 2 * 1 + 1 - 3 = w := by omega
  simp [e1, e2]

lemma conv_blockShape_eq (inC outC N h w : ℕ) (hh : 1 ≤ h) (hw : 1 ≤ w) :
    conv_blockShape inC outC ⟨N, inC, h, w⟩ = some ⟨N, outC, h, w⟩ := by
  simp [conv_blockShape, batchNorm2dShape,
    conv2dShape_31_eq inC outC N h w hh hw,
    conv2dShape_31_eq outC outC N h w hh hw]

lemma encoder_blockShape_eq (inC outC N h w : ℕ) (hh : 2 ≤ h) (hw : 2 ≤ w) :
    encoder_blockShape inC outC ⟨N, inC, h, w⟩ =
      some (⟨N, outC, h, w⟩, ⟨N, outC, h / 2, w / 2⟩) := by
  simp [encoder_blockShape, maxPool2dShape,
    conv_blockShape_eq inC outC N h w (by omega) (by omega), hh, hw]

lemma decoder_blockShape_eq (inC outC N h w : ℕ) (hh : 1 ≤ h) (hw : 1 ≤ w) :
    decoder_blockShape inC outC ⟨N, inC, h, w⟩ ⟨N, outC, 2 * h, 2 * w⟩ =
      some ⟨N, outC, 2 * h, 2 * w⟩ := by
  simp [decoder_blockShape, convTranspose2dShape, catShape, hh, hw,
    conv_blockShape_eq (outC + outC) outC N (2 * h) (2 * w) (by omega) (by omega)]

/-- C4: for every input of shape (N, C_in, H, W) with H and W positive and
divisible by 16, `UNet_STA.forward` produces a tensor of shape
(N, n_class, H, W), where `C_in` and `n_class` are the channel counts the
network was constructed with. -/
theorem unet_shape_invariant (nIn nClass N H W : ℕ)
    (hH : 16 ∣ H) (hW : 16 ∣ W) (hHpos : 0 < H) (hWpos : 0 < W) :
    unetForwardShape nIn nClass ⟨N, nIn, H, W⟩ = some ⟨N, nClass, H, W⟩ := by
  obtain ⟨a, rfl⟩ := hH
  obtain ⟨b, rfl⟩ := hW
  have ha : 1 ≤ a := by omega
  have hb : 1 ≤ b := by omega
  have d1h : 16 * a / 2 = 8 * a := by omega
  have d1w : 16 * b / 2 = 8 * b := by omega
  have d2h : 8 * a / 2 = 4 * a := by omega
  have d2w : 8 * b / 2 = 4 * b := by omega
  have d3h : 4 * a / 2 = 2 * a := by omega
  have d3w : 4 * b / 2 = 2 * b := by omega
  have d4h : 2 * a / 2 = a := by omega
  have d4w : 2 * b / 2 = b := by omega
  have dec2 := decoder_blockShape_eq 512 256 N (2 * a) (2 * b) (by omega) (by omega)
  rw [show 2 * (2 * a) = 4 * a by ring, show 2 * (2 * b) = 4 * b by ring] at dec2
  have dec3 := decoder_blockShape_eq 256 128 N (4 * a) (4 * b) (by omega) (by omega)
  rw [show 2 * (4 * a) = 8 * a by ring, show 2 * (4 * b) = 8 * b by ring] at dec3
  have dec4 := decoder_blockShape_eq 128 64 N (8 * a) (8 * b) (by omega) (by omega)
  rw [show 2 * (8 * a) = 16 * a by ring, show 2 * (8 * b) = 16 * b by ring] at dec4
  have fin : conv2dShape 64 nClass 1 0 ⟨N, 64, 16 * a, 16 * b⟩ =
      some ⟨N, nClass, 16 * a, 16 * b⟩ := by
    rw [conv2dShape, if_pos ⟨rfl, by simp; omega, by simp; omega⟩]
    have e1 : 16 * a + 2 * 0 + 1 - 1 = 16 * a := by omega
    have e2 : 16 * b + 2 * 0 + 1 - 1 = 16 * b := by omega
    simp [e1, e2]
  simp [unetForwardShape, basicLayerShape, Option.some_bind,
    encoder_blockShape_eq nIn 64 N (16 * a) (16 * b) (by omega) (by omega),
    d1h, d1w,
    encoder_blockShape_eq 64 128 N (8 * a) (8 * b) (by omega) (by omega),
    d2h, d2w,
    encoder_blockShape_eq 128 256 N (4 * a) (4 * b) (by omega) (by omega),
    d3h, d3w,
    encoder_blockShape_eq 256 512 N (2 * a) (2 * b) (by omega) (by omega),
    d4h, d4w,
    conv_blockShape_eq 512 1024 N a b ha hb,
    decoder_blockShape_eq 1024 512 N a b ha hb,
    dec2, dec3, dec4, fin]

/-- C4 witness: a 1×1×16×16 input through a network with one input channel
and 9 classes. -/
theorem unet_shape_invariant_witness :
    (16 ∣ 16) ∧ (0:ℕ) < 16 ∧
    unetForwardShape 1 9 ⟨1, 1, 16, 16⟩ = some ⟨1, 9, 16, 16⟩ :=
  ⟨⟨1, rfl⟩, by norm_num,
   unet_shape_invariant 1 9 1 16 16 ⟨1, rfl⟩ ⟨1, rfl⟩ (by norm_num) (by norm_num)⟩

/-- The device-availability check of `trainer_synapse`
(trainer_unet.py lines 135-141): given the two accelerator availability
flags, returns the value bound to the variable `device` (none when the
variable is left unbound) and the list of diagnostic lines printed.  The
check is a total function: the else-branch only prints, it neither raises nor
exits. -/
def deviceCheck (cudaAvail xpuAvail : Bool) : Option String × List String :=
  if cudaAvail then (some "cuda", [])
  else if xpuAvail then (some "xpu", [])
  else (none,
    ["Neither CUDA nor XPU devices are available to demonstrate profiling on acceleration devices"])

/-- C9: on a pure-CPU host (neither CUDA nor XPU available) the check prints
exactly the diagnostic line and completes without aborting, leaving the
`device` variable unbound (the subsequent `print(device)` at line 141 is then
the first use of the undefined name). -/
theorem deviceCheck_cpu_host :
    deviceCheck false false =
      (none,
       ["Neither CUDA nor XPU devices are available to demonstrate profiling on acceleration devices"]) :=
  rfl
